import Mathlib

/-!
# Verification of the GIL core (`Python/ceval_gil.h`)

This file gives a shallow embedding of the global interpreter lock
implemented in `Python/ceval_gil.h` and proves / refutes the stated
properties of its specification.

The development has two layers:

* a *sequential* layer (`Gil`, `create_gil`, `take_gil`, `drop_gil`,
  `_PyEval_SetSwitchInterval`, …) embedding the pure state effects of the
  C functions, used for the functional-correctness and error-handling
  claims; and
* a *concurrent* layer (`GilState`, `Step`, `SysStep`, `Reachable`):
  a small-step transition system in which every thread executes
  `take_gil` / `drop_gil` as a sequence of atomic actions, with the two
  mutexes (`gil_mutex`, `switch_mutex`) and the two condition variables
  (`gil_cond`, `switch_cond`) modelled faithfully, used for the
  mutual-exclusion, handoff and frame-effect claims.

Thread identities: a thread-state pointer `PyThreadState *` is only ever
compared for pointer equality, so it is modelled as `Option Nat`
(`none` = `NULL`, `some i` = the thread state of thread `i`; distinct
threads have distinct pointers).
-/

/-! ## Sequential layer: the state cell and the pure state effects -/

/-- The shared state cell of the lock, as the file-scope C variables:
`gil_locked` (an `int`: `-1` uninitialized, `0` free, `1` taken),
`gil_switch_number`, `gil_last_holder` (a pointer, `none` = `NULL`),
the drop-request flag (`gil_drop_request`, declared in the enclosing
translation unit and written through `SET_GIL_DROP_REQUEST` /
`RESET_GIL_DROP_REQUEST`), and `gil_interval`. -/
structure Gil where
  gil_locked : Int
  gil_switch_number : Nat
  gil_last_holder : Option Nat
  gil_drop_request : Bool
  gil_interval : Nat
  deriving DecidableEq, Repr

/-- The static initializers of the C file:
`gil_locked = -1`, `gil_switch_number = 0`, `gil_last_holder = NULL`,
`gil_interval = DEFAULT_INTERVAL (= 5000)`. -/
def gil_static : Gil :=
  { gil_locked := -1
    gil_switch_number := 0
    gil_last_holder := none
    gil_drop_request := false
    gil_interval := 5000 }

/-- A concrete "pre-fork" state with accumulated switches, used to
refute the claim that reinitialization resets `gil_switch_number`. -/
def gil_prefork : Gil :=
  { gil_locked := 0
    gil_switch_number := 5
    gil_last_holder := some 3
    gil_drop_request := false
    gil_interval := 5000 }

/-- The C function `gil_created()`: `gil_locked >= 0`. -/
def gil_created (s : Gil) : Bool :=
  s.gil_locked ≥ 0

/-- The C function `create_gil()`: initializes the mutexes and condition variables and
sets `gil_locked = 0` and `gil_last_holder = NULL`.  Note that it does
*not* touch `gil_switch_number` (nor the drop-request flag). -/
def create_gil (s : Gil) : Gil :=
  { s with gil_locked := 0, gil_last_holder := none }

/-- The C function `recreate_gil()`: just calls `create_gil()`. -/
def recreate_gil (s : Gil) : Gil :=
  create_gil s

/-- The C function `drop_gil(tstate)`, sequential state effect (the release proper,
setting `gil_locked = 0` under `gil_mutex`): `none` when one of the two
`Py_FatalError` checks fires — `if (!gil_locked)`, which in C holds
exactly when `gil_locked == 0` (the uninitialized value `-1` is truthy),
and `if (tstate != NULL && tstate != gil_last_holder)` — otherwise the
updated state.  The forced-handoff phase that may follow only blocks and
changes no shared variable; it is modelled in the concurrent layer. -/
def drop_gil (tstate : Option Nat) (s : Gil) : Option Gil :=
  if s.gil_locked = 0 then none
  else if tstate ≠ none ∧ tstate ≠ s.gil_last_holder then none
  else some { s with gil_locked := 0 }

/-- The C function `take_gil(tstate)`, sequential state effect on the uncontended path
(`!gil_locked` at entry, so the wait loop is skipped): set
`gil_locked = 1`; if `tstate != gil_last_holder`, set
`gil_last_holder = tstate` and increment `gil_switch_number`; if
`gil_drop_request`, reset it.  The argument is a bare `Nat` because
`take_gil` fatals on a `NULL` tstate at entry.  When `gil_locked ≠ 0`
at entry a sequential (single-threaded) caller would block in the wait
loop forever, so the result is `none`; the wait loop itself is modelled
in the concurrent layer. -/
def take_gil (tstate : Nat) (s : Gil) : Option Gil :=
  if s.gil_locked = 0 then
    some { s with
      gil_locked := 1
      gil_last_holder := some tstate
      gil_switch_number :=
        if some tstate ≠ s.gil_last_holder then s.gil_switch_number + 1
        else s.gil_switch_number
      gil_drop_request := false }
  else none

/-- The C function `_PyEval_SetSwitchInterval(microseconds)`. -/
def _PyEval_SetSwitchInterval (microseconds : Nat) (s : Gil) : Gil :=
  { s with gil_interval := microseconds }

/-- The C function `_PyEval_GetSwitchInterval()`. -/
def _PyEval_GetSwitchInterval (s : Gil) : Nat :=
  s.gil_interval

/-- The `INTERVAL` macro: `gil_interval >= 1 ? gil_interval : 1`. -/
def INTERVAL (s : Gil) : Nat :=
  if s.gil_interval ≥ 1 then s.gil_interval else 1

/-- One `take_gil(t); drop_gil(&t)` cycle by identity `t`. -/
def takeDropCycle (t : Nat) (s : Gil) : Option Gil :=
  (take_gil t s).bind (drop_gil (some t))

/-- A sequence of `take; drop` cycles, one per identity in the list. -/
def runTakes (ids : List Nat) (s : Gil) : Option Gil :=
  ids.foldl (fun acc t => acc.bind (takeDropCycle t)) (some s)

/-- The number of adjacent equal pairs in a list of identities. -/
def countAdj : List Nat → Nat
  | a :: b :: r => (if a = b then 1 else 0) + countAdj (b :: r)
  | _ => 0

/-- The number of takes in `ids` that increment `gil_switch_number`,
starting from a state whose `gil_last_holder` is `h`: a take by `t`
increments exactly when `some t` differs from the current holder. -/
def switchesFrom (h : Option Nat) : List Nat → Nat
  | [] => 0
  | t :: r => (if some t = h then 0 else 1) + switchesFrom (some t) r

/-! ## Concurrent layer: threads, program counters and the step relation

Each thread executes `take_gil` / `drop_gil` as a sequence of atomic
actions.  An action is atomic exactly when the C code performs it while
holding the protecting mutex (`gil_mutex` for `gil_locked`,
`gil_switch_number` and the wait loop; `switch_mutex` for the handoff
rendezvous), or when it is a single unprotected read (the fatal checks
and the `gil_drop_request` read in `drop_gil`).  Blocking points
(`MUTEX_LOCK`, `COND_TIMED_WAIT`, `COND_WAIT`) are the states between
actions. -/

/-- Program counter of one thread inside `take_gil` / `drop_gil`.

Take-side counters carry `err`, the errno value saved at entry
(`err = errno`).  Drop-side counters carry `t`, the `tstate` argument of
the call (`none` = `NULL`, which `drop_gil` explicitly allows). -/
inductive TPC where
  /-- Outside both functions, not holding the GIL. -/
  | notOwner : TPC
  /-- In `take_gil`, blocked acquiring `gil_mutex`. -/
  | tLockM (err : Int) : TPC
  /-- In `take_gil`, holding `gil_mutex`, about to test `if (!gil_locked)`. -/
  | tCheck (err : Int) : TPC
  /-- In `take_gil`, inside `COND_TIMED_WAIT(gil_cond, gil_mutex, …)`:
  `gil_mutex` is released, `saved` is `saved_switchnum`. -/
  | tWaiting (err : Int) (saved : Nat) : TPC
  /-- In `take_gil`, the timed wait returned (holding `gil_mutex` again)
  with result `timed_out`; about to run the drop-request test and the
  `while (gil_locked)` re-check. -/
  | tAfterWait (err : Int) (saved : Nat) (timed_out : Bool) : TPC
  /-- In `take_gil` at `_ready`, blocked acquiring `switch_mutex`. -/
  | tLockH (err : Int) : TPC
  /-- In `take_gil`, holding `gil_mutex` and `switch_mutex`, about to set
  `gil_locked = 1` and publish `gil_last_holder`. -/
  | tSetLocked (err : Int) : TPC
  /-- In `take_gil`, `switch_mutex` released again; about to reset
  `gil_drop_request` and unlock `gil_mutex`. -/
  | tResetDrop (err : Int) : TPC
  /-- Returned from `take_gil`: running with the GIL held. -/
  | running : TPC
  /-- In `drop_gil(t)`, about to run the two `Py_FatalError` checks
  (performed without any mutex). -/
  | dChecks (t : Option Nat) : TPC
  /-- In `drop_gil`, blocked acquiring `gil_mutex`. -/
  | dLockM (t : Option Nat) : TPC
  /-- In `drop_gil`, holding `gil_mutex`, about to set `gil_locked = 0`
  and signal `gil_cond`. -/
  | dRelease (t : Option Nat) : TPC
  /-- In `drop_gil`, `gil_mutex` released; about to read
  `gil_drop_request` (without any mutex). -/
  | dCheckReq (t : Option Nat) : TPC
  /-- In `drop_gil`, blocked acquiring `switch_mutex`. -/
  | dLockH (t : Option Nat) : TPC
  /-- In `drop_gil`, holding `switch_mutex`, about to test
  `if (gil_last_holder == tstate)`. -/
  | dCheckLH (t : Option Nat) : TPC
  /-- In `drop_gil`, inside `COND_WAIT(switch_cond, switch_mutex)`:
  `switch_mutex` is released; only `COND_SIGNAL(switch_cond)` (issued by
  a fresh holder in `take_gil`) can end this wait. -/
  | dWaitD (t : Option Nat) : TPC
  /-- In `drop_gil`, the wait was signalled; reacquiring `switch_mutex`
  before unlocking it and returning. -/
  | dAwake (t : Option Nat) : TPC
  /-- State after `Py_FatalError` was reached. -/
  | fatal : TPC
  deriving DecidableEq, Repr

/-- Global state of the concurrent system: the shared C variables, the
two mutexes (`none` = unlocked, `some i` = held by thread `i`), each
thread's program counter, and each thread's errno. -/
structure GilState where
  gil_locked : Int
  gil_switch_number : Nat
  gil_last_holder : Option Nat
  gil_drop_request : Bool
  gil_mutex : Option Nat
  switch_mutex : Option Nat
  pcs : Nat → TPC
  errnos : Nat → Int

/-- The state right after `create_gil()`: `gil_locked = 0`,
`gil_last_holder = NULL`, both mutexes free, every thread outside. -/
def gilInit : GilState :=
  { gil_locked := 0
    gil_switch_number := 0
    gil_last_holder := none
    gil_drop_request := false
    gil_mutex := none
    switch_mutex := none
    pcs := fun _ => .notOwner
    errnos := fun _ => 0 }

/-- Effect of `COND_SIGNAL(switch_cond)`: every thread blocked in the
handoff wait becomes runnable (waking all waiters over-approximates the
single `pthread_cond_signal`). -/
def wakeAll (p : Nat → TPC) : Nat → TPC :=
  fun j => match p j with
    | .dWaitD t => .dAwake t
    | q => q

/-- One atomic action of thread `i`, as a relation between global states.
Each constructor is annotated with the source lines it embeds. -/
inductive Step : Nat → GilState → GilState → Prop where
  /-- Thread `i` calls `take_gil(&i)`.  The tstate is non-`NULL`, so the
  entry check passes; `err = errno` saves the caller's errno. -/
  | startTake (i : Nat) (s : GilState)
      (h : s.pcs i = .notOwner) :
      Step i s { s with pcs := Function.update s.pcs i (.tLockM (s.errnos i)) }
  /-- Action `MUTEX_LOCK(gil_mutex)` succeeds (the pthread call may clobber
  errno with an arbitrary value `c`). -/
  | tAcqM (i : Nat) (s : GilState) (e c : Int)
      (h : s.pcs i = .tLockM e) (hm : s.gil_mutex = none) :
      Step i s { s with gil_mutex := some i
                        pcs := Function.update s.pcs i (.tCheck e)
                        errnos := Function.update s.errnos i c }
  /-- Test `if (!gil_locked) goto _ready;` — taken branch. -/
  | tCheckFree (i : Nat) (s : GilState) (e : Int)
      (h : s.pcs i = .tCheck e) (hl : s.gil_locked = 0) :
      Step i s { s with pcs := Function.update s.pcs i (.tLockH e) }
  /-- Loop `while (gil_locked)` entered: `saved_switchnum = gil_switch_number`
  and `COND_TIMED_WAIT` releases `gil_mutex` and blocks. -/
  | tCheckBusy (i : Nat) (s : GilState) (e : Int)
      (h : s.pcs i = .tCheck e) (hl : s.gil_locked ≠ 0) :
      Step i s { s with gil_mutex := none
                        pcs := Function.update s.pcs i (.tWaiting e s.gil_switch_number) }
  /-- The timed wait ends — by timeout, by `COND_SIGNAL(gil_cond)` from a
  releaser, or spuriously — and reacquires `gil_mutex`; the pthread call
  may clobber errno. -/
  | tWake (i : Nat) (s : GilState) (e : Int) (saved : Nat)
      (timed_out : Bool) (c : Int)
      (h : s.pcs i = .tWaiting e saved) (hm : s.gil_mutex = none) :
      Step i s { s with gil_mutex := some i
                        pcs := Function.update s.pcs i (.tAfterWait e saved timed_out)
                        errnos := Function.update s.errnos i c }
  /-- After the wait, while holding `gil_mutex`: `if (timed_out &&
  gil_locked && gil_switch_number == saved_switchnum)
  SET_GIL_DROP_REQUEST();`, then the `while (gil_locked)` re-check finds
  the GIL still taken, so a new iteration records `saved_switchnum` and
  `COND_TIMED_WAIT` releases `gil_mutex` and blocks again. -/
  | tAfterBusy (i : Nat) (s : GilState) (e : Int) (saved : Nat)
      (timed_out : Bool)
      (h : s.pcs i = .tAfterWait e saved timed_out)
      (hl : s.gil_locked ≠ 0) :
      Step i s { s with
        gil_drop_request :=
          if timed_out ∧ s.gil_locked ≠ 0 ∧ s.gil_switch_number = saved
          then true else s.gil_drop_request
        gil_mutex := none
        pcs := Function.update s.pcs i (.tWaiting e s.gil_switch_number) }
  /-- After the wait, while holding `gil_mutex`: the `while (gil_locked)`
  re-check finds the GIL free, so the loop exits to `_ready` (the
  drop-request condition has `gil_locked` as a conjunct, so the flag is
  unchanged here). -/
  | tAfterFree (i : Nat) (s : GilState) (e : Int) (saved : Nat)
      (timed_out : Bool)
      (h : s.pcs i = .tAfterWait e saved timed_out)
      (hl : s.gil_locked = 0) :
      Step i s { s with pcs := Function.update s.pcs i (.tLockH e) }
  /-- Action `MUTEX_LOCK(switch_mutex)` at `_ready` succeeds. -/
  | tAcqH (i : Nat) (s : GilState) (e : Int)
      (h : s.pcs i = .tLockH e) (hm : s.switch_mutex = none) :
      Step i s { s with switch_mutex := some i
                        pcs := Function.update s.pcs i (.tSetLocked e) }
  /-- Action `gil_locked = 1; if (tstate != gil_last_holder) { gil_last_holder =
  tstate; ++gil_switch_number; } COND_SIGNAL(switch_cond);
  MUTEX_UNLOCK(switch_mutex);` — all while holding both mutexes; the
  signal wakes the handoff waiters. -/
  | tGo (i : Nat) (s : GilState) (e : Int)
      (h : s.pcs i = .tSetLocked e) :
      Step i s { s with
        gil_locked := 1
        gil_last_holder :=
          if some i ≠ s.gil_last_holder then some i else s.gil_last_holder
        gil_switch_number :=
          if some i ≠ s.gil_last_holder then s.gil_switch_number + 1
          else s.gil_switch_number
        switch_mutex := none
        pcs := Function.update (wakeAll s.pcs) i (.tResetDrop e) }
  /-- Action `if (gil_drop_request) RESET_GIL_DROP_REQUEST();` (net effect: the
  flag is false), the external async-exc hook, `MUTEX_UNLOCK(gil_mutex)`
  and `errno = err;` — `take_gil` returns. -/
  | tDone (i : Nat) (s : GilState) (e : Int)
      (h : s.pcs i = .tResetDrop e) :
      Step i s { s with gil_drop_request := false
                        gil_mutex := none
                        pcs := Function.update s.pcs i .running
                        errnos := Function.update s.errnos i e }
  /-- The holder calls `drop_gil(t)` with its own tstate or `NULL`
  (callers release the GIL they hold; `tstate` is allowed to be NULL). -/
  | startDrop (i : Nat) (s : GilState) (t : Option Nat)
      (h : s.pcs i = .running) (ht : t = some i ∨ t = none) :
      Step i s { s with pcs := Function.update s.pcs i (.dChecks t) }
  /-- The two `Py_FatalError` checks of `drop_gil`, read without any
  mutex — `if (!gil_locked)` (i.e. `gil_locked == 0`) and
  `if (tstate != NULL && tstate != gil_last_holder)` — both pass. -/
  | dCheckOk (i : Nat) (s : GilState) (t : Option Nat)
      (h : s.pcs i = .dChecks t)
      (hok : ¬(s.gil_locked = 0 ∨ (t ≠ none ∧ t ≠ s.gil_last_holder))) :
      Step i s { s with pcs := Function.update s.pcs i (.dLockM t) }
  /-- One of the two `Py_FatalError` checks of `drop_gil` fires. -/
  | dCheckFatal (i : Nat) (s : GilState) (t : Option Nat)
      (h : s.pcs i = .dChecks t)
      (hbad : s.gil_locked = 0 ∨ (t ≠ none ∧ t ≠ s.gil_last_holder)) :
      Step i s { s with pcs := Function.update s.pcs i .fatal }
  /-- Action `MUTEX_LOCK(gil_mutex)` in `drop_gil` succeeds. -/
  | dAcqM (i : Nat) (s : GilState) (t : Option Nat)
      (h : s.pcs i = .dLockM t) (hm : s.gil_mutex = none) :
      Step i s { s with gil_mutex := some i
                        pcs := Function.update s.pcs i (.dRelease t) }
  /-- Action `gil_locked = 0; COND_SIGNAL(gil_cond); COND_PREPARE(switch_cond);
  MUTEX_UNLOCK(gil_mutex);` — the release proper.  (`COND_SIGNAL` may end
  a `tWaiting` wait, which the `tWake` action models; `COND_PREPARE` is a
  no-op for POSIX condition variables.) -/
  | dRel (i : Nat) (s : GilState) (t : Option Nat)
      (h : s.pcs i = .dRelease t) :
      Step i s { s with gil_locked := 0
                        gil_mutex := none
                        pcs := Function.update s.pcs i (.dCheckReq t) }
  /-- Test `if (gil_drop_request) { … }` — the lock-free read finds the flag
  set, entering the forced-handoff phase. -/
  | dReqHandoff (i : Nat) (s : GilState) (t : Option Nat)
      (h : s.pcs i = .dCheckReq t) (hdr : s.gil_drop_request = true) :
      Step i s { s with pcs := Function.update s.pcs i (.dLockH t) }
  /-- Test `if (gil_drop_request) { … }` — the flag is clear, so `drop_gil`
  returns. -/
  | dReqReturn (i : Nat) (s : GilState) (t : Option Nat)
      (h : s.pcs i = .dCheckReq t) (hdr : s.gil_drop_request = false) :
      Step i s { s with pcs := Function.update s.pcs i .notOwner }
  /-- Action `MUTEX_LOCK(switch_mutex)` in `drop_gil` succeeds. -/
  | dAcqH (i : Nat) (s : GilState) (t : Option Nat)
      (h : s.pcs i = .dLockH t) (hm : s.switch_mutex = none) :
      Step i s { s with switch_mutex := some i
                        pcs := Function.update s.pcs i (.dCheckLH t) }
  /-- Test `if (gil_last_holder == tstate)` holds so `COND_WAIT(switch_cond,
  switch_mutex);` — not switched yet ⇒ wait (the wait releases
  `switch_mutex` while blocked). -/
  | dLHWait (i : Nat) (s : GilState) (t : Option Nat)
      (h : s.pcs i = .dCheckLH t) (hlh : s.gil_last_holder = t) :
      Step i s { s with switch_mutex := none
                        pcs := Function.update s.pcs i (.dWaitD t) }
  /-- Test `if (gil_last_holder == tstate)` fails — someone else already took
  the GIL — so `MUTEX_UNLOCK(switch_mutex)` and `drop_gil` returns. -/
  | dLHReturn (i : Nat) (s : GilState) (t : Option Nat)
      (h : s.pcs i = .dCheckLH t) (hlh : s.gil_last_holder ≠ t) :
      Step i s { s with switch_mutex := none
                        pcs := Function.update s.pcs i .notOwner }
  /-- The signalled handoff wait reacquires `switch_mutex`, then
  `MUTEX_UNLOCK(switch_mutex)` and `drop_gil` returns. -/
  | dAwakeRet (i : Nat) (s : GilState) (t : Option Nat)
      (h : s.pcs i = .dAwake t) (hm : s.switch_mutex = none) :
      Step i s { s with pcs := Function.update s.pcs i .notOwner }

/-- A system step: either one atomic action of some thread, or the
environment (signal delivery and other ceval machinery) calling
`SET_GIL_DROP_REQUEST()` at an arbitrary moment. -/
def SysStep (s s' : GilState) : Prop :=
  (∃ i, Step i s s') ∨ s' = { s with gil_drop_request := true }

/-- States reachable from the freshly created lock. -/
def Reachable (s : GilState) : Prop :=
  Relation.ReflTransGen SysStep gilInit s

/-- Does this program counter hold `gil_mutex`? -/
def holdsM : TPC → Bool
  | .tCheck _ | .tAfterWait _ _ _ | .tLockH _ | .tSetLocked _
  | .tResetDrop _ | .dRelease _ => true
  | _ => false

/-- Does this program counter hold `switch_mutex`? -/
def holdsH : TPC → Bool
  | .tSetLocked _ | .dCheckLH _ => true
  | _ => false

/-- Logical ownership: from the `gil_locked = 1` write in `take_gil` to
the `gil_locked = 0` write in `drop_gil`. -/
def owns : TPC → Bool
  | .tResetDrop _ | .running | .dChecks _ | .dLockM _ | .dRelease _ => true
  | _ => false

/-- The user-visible critical section: between a completed `take_gil`
(which returned) and the release write of the matching `drop_gil`. -/
def inCS : TPC → Bool
  | .running | .dChecks _ | .dLockM _ | .dRelease _ => true
  | _ => false

/-- Is this program counter at `_ready` (about to take / holding
`switch_mutex`, `gil_locked` still 0)? -/
def takeReady : TPC → Bool
  | .tLockH _ | .tSetLocked _ => true
  | _ => false

/-- The `tstate` argument carried by a program counter inside
`drop_gil`. -/
def dropId : TPC → Option (Option Nat)
  | .dChecks t | .dLockM t | .dRelease t | .dCheckReq t
  | .dLockH t | .dCheckLH t | .dWaitD t | .dAwake t => some t
  | _ => none

/-- The saved errno `err` carried by a program counter inside
`take_gil`. -/
def takeErr : TPC → Option Int
  | .tLockM e | .tCheck e | .tWaiting e _ | .tAfterWait e _ _
  | .tLockH e | .tSetLocked e | .tResetDrop e => some e
  | _ => none

/-- The inductive invariant of the concurrent system. -/
structure GilInv (s : GilState) : Prop where
  /-- Mutex `gil_mutex` bookkeeping: a thread is at an M-holding counter iff it
  owns `gil_mutex`. -/
  mutM : ∀ j, holdsM (s.pcs j) = true ↔ s.gil_mutex = some j
  /-- Mutex `switch_mutex` bookkeeping. -/
  mutH : ∀ j, holdsH (s.pcs j) = true ↔ s.switch_mutex = some j
  /-- After `create_gil`, `gil_locked` is a boolean. -/
  lock01 : s.gil_locked = 0 ∨ s.gil_locked = 1
  /-- An owner exists only while `gil_locked = 1`, and it is the
  published `gil_last_holder`. -/
  own_locked : ∀ j, owns (s.pcs j) = true →
    s.gil_locked = 1 ∧ s.gil_last_holder = some j
  /-- While `gil_locked = 1` some thread owns the GIL. -/
  locked_own : s.gil_locked = 1 → ∃ j, owns (s.pcs j) = true
  /-- A thread at `_ready` found (and, holding `gil_mutex`, preserves)
  `gil_locked = 0`. -/
  ready_free : ∀ j, takeReady (s.pcs j) = true → s.gil_locked = 0
  /-- A thread inside `drop_gil` passed `tstate` as its own thread state
  or `NULL`. -/
  drop_id : ∀ j t, dropId (s.pcs j) = some t → t = some j ∨ t = none
  /-- A releaser whose handoff wait was signalled observes a
  `gil_last_holder` different from its own `tstate` argument. -/
  awake_lh : ∀ j t, s.pcs j = .dAwake t → s.gil_last_holder ≠ t
  /-- Well-formed executions never reach `Py_FatalError`. -/
  no_fatal : ∀ j, s.pcs j ≠ .fatal

/-! ### A concrete execution

States `gilW1`–`gilW14` trace one thread (index 0): a full uncontended
`take_gil`, an external `SET_GIL_DROP_REQUEST`, then a `drop_gil` that
enters the forced-handoff wait.  `gilX7` branches off `gilW6` with a
`drop_gil(NULL)` call instead.  These states witness that the
hypotheses of the reachability theorems below are satisfiable. -/

def gilW1 : GilState :=
  { gilInit with pcs := Function.update gilInit.pcs 0 (.tLockM 0) }

def gilW2 : GilState :=
  { gilW1 with gil_mutex := some 0
               pcs := Function.update gilW1.pcs 0 (.tCheck 0)
               errnos := Function.update gilW1.errnos 0 0 }

def gilW3 : GilState :=
  { gilW2 with pcs := Function.update gilW2.pcs 0 (.tLockH 0) }

def gilW4 : GilState :=
  { gilW3 with switch_mutex := some 0
               pcs := Function.update gilW3.pcs 0 (.tSetLocked 0) }

def gilW5 : GilState :=
  { gilW4 with gil_locked := 1
               gil_last_holder := some 0
               gil_switch_number := 1
               switch_mutex := none
               pcs := Function.update (wakeAll gilW4.pcs) 0 (.tResetDrop 0) }

def gilW6 : GilState :=
  { gilW5 with gil_drop_request := false
               gil_mutex := none
               pcs := Function.update gilW5.pcs 0 .running
               errnos := Function.update gilW5.errnos 0 0 }

def gilW7 : GilState :=
  { gilW6 with gil_drop_request := true }

def gilW8 : GilState :=
  { gilW7 with pcs := Function.update gilW7.pcs 0 (.dChecks (some 0)) }

def gilW9 : GilState :=
  { gilW8 with pcs := Function.update gilW8.pcs 0 (.dLockM (some 0)) }

def gilW10 : GilState :=
  { gilW9 with gil_mutex := some 0
               pcs := Function.update gilW9.pcs 0 (.dRelease (some 0)) }

def gilW11 : GilState :=
  { gilW10 with gil_locked := 0
                gil_mutex := none
                pcs := Function.update gilW10.pcs 0 (.dCheckReq (some 0)) }

def gilW12 : GilState :=
  { gilW11 with pcs := Function.update gilW11.pcs 0 (.dLockH (some 0)) }

def gilW13 : GilState :=
  { gilW12 with switch_mutex := some 0
                pcs := Function.update gilW12.pcs 0 (.dCheckLH (some 0)) }

def gilW14 : GilState :=
  { gilW13 with switch_mutex := none
                pcs := Function.update gilW13.pcs 0 (.dWaitD (some 0)) }

def gilX7 : GilState :=
  { gilW6 with pcs := Function.update gilW6.pcs 0 (.dChecks none) }

/-- A state with thread 1 returning from the timed wait while the GIL
is held: exercises the drop-request-setting action. -/
def gilY : GilState :=
  { gilInit with gil_locked := 1
                 gil_mutex := some 1
                 pcs := Function.update gilInit.pcs 1 (.tAfterWait 0 0 true) }

/-- The result of the `tAfterBusy` action from `gilY`: the flag is set
and thread 1 re-enters the wait. -/
def gilY' : GilState :=
  { gilY with gil_drop_request := true
              gil_mutex := none
              pcs := Function.update gilY.pcs 1 (.tWaiting 0 0) }

/-! ## Sequential lemmas -/

theorem takeDropCycle_eq (t : Nat) (s : Gil) (h : s.gil_locked = 0) :
    takeDropCycle t s =
      some { s with
        gil_locked := 0
        gil_last_holder := some t
        gil_switch_number :=
          if some t ≠ s.gil_last_holder then s.gil_switch_number + 1
          else s.gil_switch_number
        gil_drop_request := false } := by
  simp [takeDropCycle, take_gil, drop_gil, h]

theorem runTakes_cons (t : Nat) (r : List Nat) (s s₁ : Gil)
    (h : takeDropCycle t s = some s₁) :
    runTakes (t :: r) s = runTakes r s₁ := by
  simp [runTakes, List.foldl_cons, Option.bind, h]

/-- Running a sequence of take/drop cycles from a free state succeeds, ends
free, and adds `switchesFrom s.gil_last_holder ids` to the switch counter. -/
theorem runTakes_spec (ids : List Nat) :
    ∀ s : Gil, s.gil_locked = 0 →
      ∃ s', runTakes ids s = some s' ∧ s'.gil_locked = 0 ∧
        s'.gil_switch_number =
          s.gil_switch_number + switchesFrom s.gil_last_holder ids ∧
        s'.gil_last_holder = (ids.getLast?.map some).getD s.gil_last_holder := by
  induction ids with
  | nil =>
    intro s h
    exact ⟨s, rfl, h, by simp [switchesFrom], by simp⟩
  | cons t r ih =>
    intro s h
    have hc := takeDropCycle_eq t s h
    set s₁ : Gil :=
      { s with
        gil_locked := 0
        gil_last_holder := some t
        gil_switch_number :=
          if some t ≠ s.gil_last_holder then s.gil_switch_number + 1
          else s.gil_switch_number
        gil_drop_request := false } with hs₁
    obtain ⟨s', hrun, hfree, hsn, hlh⟩ := ih s₁ rfl
    refine ⟨s', ?_, hfree, ?_, ?_⟩
    · rw [runTakes_cons t r s s₁ hc, hrun]
    · rw [hsn, hs₁]
      simp only [switchesFrom]
      by_cases ht : some t = s.gil_last_holder
      · simp [ht]
      · simp [ht]
        omega
    · rcases r with _ | ⟨u, r'⟩
      · simpa [hs₁] using hlh
      · simpa [List.getLast?_cons_cons] using hlh

theorem switchesFrom_some_add_countAdj (ids : List Nat) :
    ∀ h : Nat, switchesFrom (some h) ids + countAdj (h :: ids) = ids.length := by
  induction ids with
  | nil => intro h; simp [switchesFrom, countAdj]
  | cons t r ih =>
    intro h
    have ih' := ih t
    simp only [switchesFrom, countAdj, List.length_cons]
    by_cases ht : t = h
    · subst ht
      simp only [if_pos rfl, if_pos trivial]
      simp
      omega
    · have h1 : ¬(some t = some h) := by simpa using ht
      have h2 : ¬(h = t) := fun e => ht e.symm
      rw [if_neg h1, if_neg h2]
      omega

theorem switchesFrom_none_add_countAdj (ids : List Nat) :
    switchesFrom none ids + countAdj ids = ids.length := by
  cases ids with
  | nil => simp [switchesFrom, countAdj]
  | cons t r =>
    have h1 := switchesFrom_some_add_countAdj r t
    simp only [switchesFrom, List.length_cons]
    have h2 : ¬(some t = (none : Option Nat)) := by simp
    rw [if_neg h2]
    omega

theorem switchesFrom_none_eq (ids : List Nat) :
    switchesFrom none ids = ids.length - countAdj ids := by
  have := switchesFrom_none_add_countAdj ids
  omega

/-! ## Concurrent lemmas: the inductive invariant -/

theorem holdsM_wakeAll (p : Nat → TPC) (j : Nat) :
    holdsM (wakeAll p j) = holdsM (p j) := by
  unfold wakeAll; cases p j <;> rfl

theorem holdsH_wakeAll (p : Nat → TPC) (j : Nat) :
    holdsH (wakeAll p j) = holdsH (p j) := by
  unfold wakeAll; cases p j <;> rfl

theorem owns_wakeAll (p : Nat → TPC) (j : Nat) :
    owns (wakeAll p j) = owns (p j) := by
  unfold wakeAll; cases p j <;> rfl

theorem takeReady_wakeAll (p : Nat → TPC) (j : Nat) :
    takeReady (wakeAll p j) = takeReady (p j) := by
  unfold wakeAll; cases p j <;> rfl

theorem dropId_wakeAll (p : Nat → TPC) (j : Nat) :
    dropId (wakeAll p j) = dropId (p j) := by
  unfold wakeAll; cases p j <;> rfl

theorem wakeAll_fatal (p : Nat → TPC) (j : Nat) :
    wakeAll p j = .fatal ↔ p j = .fatal := by
  unfold wakeAll; cases p j <;> simp

theorem wakeAll_dAwake (p : Nat → TPC) (j : Nat) (t : Option Nat) :
    wakeAll p j = .dAwake t ↔ (p j = .dWaitD t ∨ p j = .dAwake t) := by
  unfold wakeAll; cases p j <;> simp

theorem takeReady_holdsM (pc : TPC) (h : takeReady pc = true) :
    holdsM pc = true := by
  cases pc <;> simp [takeReady, holdsM] at *

theorem gilInv_init : GilInv gilInit := by
  refine ⟨?_, ?_, ?_, ?_, ?_, ?_, ?_, ?_, ?_⟩ <;>
    simp [gilInit, holdsM, holdsH, owns, takeReady, dropId]

/-- Mutex bookkeeping survives a pc change that does not change the
thread's holding status, with the mutex cell untouched. -/
theorem lockinv_update_neutral (F : TPC → Bool) {pcs : Nat → TPC}
    {m : Option Nat} (hF : ∀ j, F (pcs j) = true ↔ m = some j)
    (i : Nat) (p : TPC) (hp : F p = F (pcs i)) :
    ∀ j, F (Function.update pcs i p j) = true ↔ m = some j := by
  intro j
  rcases eq_or_ne j i with rfl | hj
  · rw [Function.update_same, hp]; exact hF j
  · rw [Function.update_noteq hj]; exact hF j

/-- Mutex bookkeeping after thread `i` acquires a free mutex. -/
theorem lockinv_update_acquire (F : TPC → Bool) {pcs : Nat → TPC}
    {m : Option Nat} (hF : ∀ j, F (pcs j) = true ↔ m = some j)
    (hm : m = none) (i : Nat) (p : TPC) (hp : F p = true) :
    ∀ j, F (Function.update pcs i p j) = true ↔ (some i : Option Nat) = some j := by
  intro j
  rcases eq_or_ne j i with rfl | hj
  · rw [Function.update_same, hp]; simp
  · rw [Function.update_noteq hj]
    constructor
    · intro hh
      rw [hm] at hF
      exact absurd ((hF j).mp hh) (by simp)
    · intro he
      exact absurd (Option.some.inj he) (fun e => hj (e.symm))

/-- Mutex bookkeeping after the holder `i` releases its mutex. -/
theorem lockinv_update_release (F : TPC → Bool) {pcs : Nat → TPC}
    {m : Option Nat} (hF : ∀ j, F (pcs j) = true ↔ m = some j)
    (i : Nat) (hi : F (pcs i) = true) (p : TPC) (hp : F p = false) :
    ∀ j, F (Function.update pcs i p j) = true ↔ (none : Option Nat) = some j := by
  intro j
  rcases eq_or_ne j i with rfl | hj
  · rw [Function.update_same, hp]; simp
  · rw [Function.update_noteq hj]
    constructor
    · intro hh
      have h1 := (hF j).mp hh
      have h2 := (hF i).mp hi
      rw [h1] at h2
      exact absurd (Option.some.inj h2) hj
    · intro he; cases he

/-- Owner facts survive a pc change whose new counter owns only if the
old one did, with `gil_locked` and `gil_last_holder` untouched. -/
theorem ownlike_update_neutral {pcs : Nat → TPC} {P : Nat → Prop}
    (hO : ∀ j, owns (pcs j) = true → P j)
    (i : Nat) (p : TPC) (hp : owns p = true → owns (pcs i) = true) :
    ∀ j, owns (Function.update pcs i p j) = true → P j := by
  intro j
  rcases eq_or_ne j i with rfl | hj
  · rw [Function.update_same]; exact fun hh => hO j (hp hh)
  · rw [Function.update_noteq hj]; exact hO j

/-- The drop-argument discipline survives a pc update whose new counter
carries a legal argument. -/
theorem dropid_update {pcs : Nat → TPC}
    (hD : ∀ j t, dropId (pcs j) = some t → t = some j ∨ t = none)
    (i : Nat) (p : TPC)
    (hp : ∀ t, dropId p = some t → t = some i ∨ t = none) :
    ∀ j t, dropId (Function.update pcs i p j) = some t →
      t = some j ∨ t = none := by
  intro j t
  rcases eq_or_ne j i with rfl | hj
  · rw [Function.update_same]; exact hp t
  · rw [Function.update_noteq hj]; exact hD j t

/-- The awake fact survives a pc update (with `gil_last_holder`
untouched) whose new counter, when awake, also satisfies it. -/
theorem awake_update {pcs : Nat → TPC} {lh : Option Nat}
    (hA : ∀ j t, pcs j = .dAwake t → lh ≠ t)
    (i : Nat) (p : TPC) (hp : ∀ t, p = .dAwake t → lh ≠ t) :
    ∀ j t, Function.update pcs i p j = .dAwake t → lh ≠ t := by
  intro j t
  rcases eq_or_ne j i with rfl | hj
  · rw [Function.update_same]; exact hp t
  · rw [Function.update_noteq hj]; exact hA j t

/-- Fatality-freedom survives a pc update to a non-fatal counter. -/
theorem nofatal_update {pcs : Nat → TPC}
    (hN : ∀ j, pcs j ≠ .fatal) (i : Nat) (p : TPC) (hp : p ≠ .fatal) :
    ∀ j, Function.update pcs i p j ≠ .fatal := by
  intro j
  rcases eq_or_ne j i with rfl | hj
  · rw [Function.update_same]; exact hp
  · rw [Function.update_noteq hj]; exact hN j

/-- The `_ready`-implies-free fact survives a pc update (with
`gil_locked` untouched) whose new counter also satisfies it. -/
theorem ready_update {pcs : Nat → TPC} {L : Prop}
    (hR : ∀ j, takeReady (pcs j) = true → L)
    (i : Nat) (p : TPC) (hp : takeReady p = true → L) :
    ∀ j, takeReady (Function.update pcs i p j) = true → L := by
  intro j
  rcases eq_or_ne j i with rfl | hj
  · rw [Function.update_same]; exact hp
  · rw [Function.update_noteq hj]; exact hR j

/-- Existence of an owner survives a pc update of a non-owning thread. -/
theorem lockedown_update_nonowner {pcs : Nat → TPC}
    (hE : ∃ j, owns (pcs j) = true) (i : Nat)
    (hi : owns (pcs i) = false) (p : TPC) :
    ∃ j, owns (Function.update pcs i p j) = true := by
  obtain ⟨j, hj⟩ := hE
  have hji : j ≠ i := by
    intro e
    rw [e, hi] at hj
    cases hj
  exact ⟨j, by rw [Function.update_noteq hji]; exact hj⟩

/-- Existence of an owner holds when the updated thread owns. -/
theorem lockedown_update_owner {pcs : Nat → TPC} (i : Nat) (p : TPC)
    (hp : owns p = true) :
    ∃ j, owns (Function.update pcs i p j) = true :=
  ⟨i, by rw [Function.update_same]; exact hp⟩

/-- The invariant is preserved by every atomic thread action. -/
theorem gilInv_step {i : Nat} {s s' : GilState} (inv : GilInv s)
    (h : Step i s s') : GilInv s' := by
  obtain ⟨hM, hH, h01, hOL, hLO, hRF, hDI, hAL, hNF⟩ := inv
  cases h with
  | startTake hpc =>
    refine ⟨?_, ?_, h01, ?_, ?_, ?_, ?_, ?_, ?_⟩
    · exact lockinv_update_neutral holdsM hM i _ (by rw [hpc]; rfl)
    · exact lockinv_update_neutral holdsH hH i _ (by rw [hpc]; rfl)
    · exact ownlike_update_neutral hOL i _ (by simp [owns])
    · exact fun hl => lockedown_update_nonowner (hLO hl) i (by rw [hpc]; rfl) _
    · exact ready_update hRF i _ (by simp [takeReady])
    · exact dropid_update hDI i _ (by simp [dropId])
    · exact awake_update hAL i _ (by simp)
    · exact nofatal_update hNF i _ (by simp)
  | tAcqM e c hpc hm =>
    refine ⟨?_, ?_, h01, ?_, ?_, ?_, ?_, ?_, ?_⟩
    · exact lockinv_update_acquire holdsM hM hm i _ rfl
    · exact lockinv_update_neutral holdsH hH i _ (by rw [hpc]; rfl)
    · exact ownlike_update_neutral hOL i _ (by simp [owns])
    · exact fun hl => lockedown_update_nonowner (hLO hl) i (by rw [hpc]; rfl) _
    · exact ready_update hRF i _ (by simp [takeReady])
    · exact dropid_update hDI i _ (by simp [dropId])
    · exact awake_update hAL i _ (by simp)
    · exact nofatal_update hNF i _ (by simp)
  | tCheckFree e hpc hl =>
    refine ⟨?_, ?_, h01, ?_, ?_, ?_, ?_, ?_, ?_⟩
    · exact lockinv_update_neutral holdsM hM i _ (by rw [hpc]; rfl)
    · exact lockinv_update_neutral holdsH hH i _ (by rw [hpc]; rfl)
    · exact ownlike_update_neutral hOL i _ (by simp [owns])
    · exact fun hl' => lockedown_update_nonowner (hLO hl') i (by rw [hpc]; rfl) _
    · exact ready_update hRF i _ (fun _ => hl)
    · exact dropid_update hDI i _ (by simp [dropId])
    · exact awake_update hAL i _ (by simp)
    · exact nofatal_update hNF i _ (by simp)
  | tCheckBusy e hpc hl =>
    refine ⟨?_, ?_, h01, ?_, ?_, ?_, ?_, ?_, ?_⟩
    · exact lockinv_update_release holdsM hM i (by rw [hpc]; rfl) _ rfl
    · exact lockinv_update_neutral holdsH hH i _ (by rw [hpc]; rfl)
    · exact ownlike_update_neutral hOL i _ (by simp [owns])
    · exact fun hl' => lockedown_update_nonowner (hLO hl') i (by rw [hpc]; rfl) _
    · exact ready_update hRF i _ (by simp [takeReady])
    · exact dropid_update hDI i _ (by simp [dropId])
    · exact awake_update hAL i _ (by simp)
    · exact nofatal_update hNF i _ (by simp)
  | tWake e saved timed_out c hpc hm =>
    refine ⟨?_, ?_, h01, ?_, ?_, ?_, ?_, ?_, ?_⟩
    · exact lockinv_update_acquire holdsM hM hm i _ rfl
    · exact lockinv_update_neutral holdsH hH i _ (by rw [hpc]; rfl)
    · exact ownlike_update_neutral hOL i _ (by simp [owns])
    · exact fun hl => lockedown_update_nonowner (hLO hl) i (by rw [hpc]; rfl) _
    · exact ready_update hRF i _ (by simp [takeReady])
    · exact dropid_update hDI i _ (by simp [dropId])
    · exact awake_update hAL i _ (by simp)
    · exact nofatal_update hNF i _ (by simp)
  | tAfterBusy e saved timed_out hpc hl =>
    refine ⟨?_, ?_, h01, ?_, ?_, ?_, ?_, ?_, ?_⟩
    · exact lockinv_update_release holdsM hM i (by rw [hpc]; rfl) _ rfl
    · exact lockinv_update_neutral holdsH hH i _ (by rw [hpc]; rfl)
    · exact ownlike_update_neutral hOL i _ (by simp [owns])
    · exact fun hl' => lockedown_update_nonowner (hLO hl') i (by rw [hpc]; rfl) _
    · exact ready_update hRF i _ (by simp [takeReady])
    · exact dropid_update hDI i _ (by simp [dropId])
    · exact awake_update hAL i _ (by simp)
    · exact nofatal_update hNF i _ (by simp)
  | tAfterFree e saved timed_out hpc hl =>
    refine ⟨?_, ?_, h01, ?_, ?_, ?_, ?_, ?_, ?_⟩
    · exact lockinv_update_neutral holdsM hM i _ (by rw [hpc]; rfl)
    · exact lockinv_update_neutral holdsH hH i _ (by rw [hpc]; rfl)
    · exact ownlike_update_neutral hOL i _ (by simp [owns])
    · exact fun hl' => lockedown_update_nonowner (hLO hl') i (by rw [hpc]; rfl) _
    · exact ready_update hRF i _ (fun _ => hl)
    · exact dropid_update hDI i _ (by simp [dropId])
    · exact awake_update hAL i _ (by simp)
    · exact nofatal_update hNF i _ (by simp)
  | tAcqH e hpc hm =>
    refine ⟨?_, ?_, h01, ?_, ?_, ?_, ?_, ?_, ?_⟩
    · exact lockinv_update_neutral holdsM hM i _ (by rw [hpc]; rfl)
    · exact lockinv_update_acquire holdsH hH hm i _ rfl
    · exact ownlike_update_neutral hOL i _ (by simp [owns])
    · exact fun hl => lockedown_update_nonowner (hLO hl) i (by rw [hpc]; rfl) _
    · exact ready_update hRF i _ (fun _ => hRF i (by rw [hpc]; rfl))
    · exact dropid_update hDI i _ (by simp [dropId])
    · exact awake_update hAL i _ (by simp)
    · exact nofatal_update hNF i _ (by simp)
  | tGo e hpc =>
    have hMi : s.gil_mutex = some i := (hM i).mp (by rw [hpc]; rfl)
    have hL0 : s.gil_locked = 0 := hRF i (by rw [hpc]; rfl)
    have hlh' : (if some i ≠ s.gil_last_holder then some i
        else s.gil_last_holder) = some i := by
      by_cases hx : (some i : Option Nat) = s.gil_last_holder
      · simp [← hx]
      · simp [hx]
    refine ⟨?_, ?_, Or.inr rfl, ?_, ?_, ?_, ?_, ?_, ?_⟩
    · exact lockinv_update_neutral holdsM
        (fun j => by rw [holdsM_wakeAll]; exact hM j) i _
        (by rw [holdsM_wakeAll, hpc]; rfl)
    · exact lockinv_update_release holdsH
        (fun j => by rw [holdsH_wakeAll]; exact hH j) i
        (by rw [holdsH_wakeAll, hpc]; rfl) _ rfl
    · intro j
      dsimp only
      rcases eq_or_ne j i with rfl | hj
      · rw [Function.update_same]
        exact fun _ => ⟨rfl, hlh'⟩
      · rw [Function.update_noteq hj, owns_wakeAll]
        intro hh
        exact absurd (hOL j hh).1 (by simp [hL0])
    · exact fun _ => lockedown_update_owner i _ rfl
    · intro j
      dsimp only
      rcases eq_or_ne j i with rfl | hj
      · rw [Function.update_same]; simp [takeReady]
      · rw [Function.update_noteq hj, takeReady_wakeAll]
        intro hh
        have h2 := (hM j).mp (takeReady_holdsM _ hh)
        rw [hMi] at h2
        exact absurd (Option.some.inj h2) (fun e => hj e.symm)
    · exact dropid_update
        (fun j t => by rw [dropId_wakeAll]; exact hDI j t) i _
        (by simp [dropId])
    · intro j t
      dsimp only
      rcases eq_or_ne j i with rfl | hj
      · rw [Function.update_same]; simp
      · rw [Function.update_noteq hj]
        intro hh
        rw [wakeAll_dAwake] at hh
        have ht : t = some j ∨ t = none := by
          rcases hh with h1 | h1
          · exact hDI j t (by rw [h1]; rfl)
          · exact hDI j t (by rw [h1]; rfl)
        rw [hlh']
        rcases ht with rfl | rfl
        · exact fun he => hj (Option.some.inj he).symm
        · simp
    · intro j
      dsimp only
      rcases eq_or_ne j i with rfl | hj
      · rw [Function.update_same]; simp
      · rw [Function.update_noteq hj, Ne, wakeAll_fatal]
        exact hNF j
  | tDone e hpc =>
    refine ⟨?_, ?_, h01, ?_, ?_, ?_, ?_, ?_, ?_⟩
    · exact lockinv_update_release holdsM hM i (by rw [hpc]; rfl) _ rfl
    · exact lockinv_update_neutral holdsH hH i _ (by rw [hpc]; rfl)
    · exact ownlike_update_neutral hOL i _ (by rw [hpc]; simp [owns])
    · exact fun _ => lockedown_update_owner i _ rfl
    · exact ready_update hRF i _ (by simp [takeReady])
    · exact dropid_update hDI i _ (by simp [dropId])
    · exact awake_update hAL i _ (by simp)
    · exact nofatal_update hNF i _ (by simp)
  | startDrop t hpc hti =>
    refine ⟨?_, ?_, h01, ?_, ?_, ?_, ?_, ?_, ?_⟩
    · exact lockinv_update_neutral holdsM hM i _ (by rw [hpc]; rfl)
    · exact lockinv_update_neutral holdsH hH i _ (by rw [hpc]; rfl)
    · exact ownlike_update_neutral hOL i _ (by rw [hpc]; simp [owns])
    · exact fun _ => lockedown_update_owner i _ rfl
    · exact ready_update hRF i _ (by simp [takeReady])
    · exact dropid_update hDI i _
        (by intro t' ht'; simp [dropId] at ht'; subst ht'; exact hti)
    · exact awake_update hAL i _ (by simp)
    · exact nofatal_update hNF i _ (by simp)
  | dCheckOk t hpc hok =>
    refine ⟨?_, ?_, h01, ?_, ?_, ?_, ?_, ?_, ?_⟩
    · exact lockinv_update_neutral holdsM hM i _ (by rw [hpc]; rfl)
    · exact lockinv_update_neutral holdsH hH i _ (by rw [hpc]; rfl)
    · exact ownlike_update_neutral hOL i _ (by rw [hpc]; simp [owns])
    · exact fun _ => lockedown_update_owner i _ rfl
    · exact ready_update hRF i _ (by simp [takeReady])
    · exact dropid_update hDI i _
        (by intro t' ht'; simp [dropId] at ht'; subst ht'
            exact hDI i t (by rw [hpc]; rfl))
    · exact awake_update hAL i _ (by simp)
    · exact nofatal_update hNF i _ (by simp)
  | dCheckFatal t hpc hbad =>
    exfalso
    have hown := hOL i (by rw [hpc]; rfl)
    have hti := hDI i t (by rw [hpc]; rfl)
    rcases hbad with hb | ⟨hb1, hb2⟩
    · rw [hown.1] at hb; exact absurd hb (by norm_num)
    · rcases hti with rfl | rfl
      · exact hb2 hown.2.symm
      · exact hb1 rfl
  | dAcqM t hpc hm =>
    refine ⟨?_, ?_, h01, ?_, ?_, ?_, ?_, ?_, ?_⟩
    · exact lockinv_update_acquire holdsM hM hm i _ rfl
    · exact lockinv_update_neutral holdsH hH i _ (by rw [hpc]; rfl)
    · exact ownlike_update_neutral hOL i _ (by rw [hpc]; simp [owns])
    · exact fun _ => lockedown_update_owner i _ rfl
    · exact ready_update hRF i _ (by simp [takeReady])
    · exact dropid_update hDI i _
        (by intro t' ht'; simp [dropId] at ht'; subst ht'
            exact hDI i t (by rw [hpc]; rfl))
    · exact awake_update hAL i _ (by simp)
    · exact nofatal_update hNF i _ (by simp)
  | dRel t hpc =>
    refine ⟨?_, ?_, Or.inl rfl, ?_, ?_, ?_, ?_, ?_, ?_⟩
    · exact lockinv_update_release holdsM hM i (by rw [hpc]; rfl) _ rfl
    · exact lockinv_update_neutral holdsH hH i _ (by rw [hpc]; rfl)
    · intro j
      dsimp only
      rcases eq_or_ne j i with rfl | hj
      · rw [Function.update_same]; simp [owns]
      · rw [Function.update_noteq hj]
        intro hh
        have h1 := hOL j hh
        have h2 := hOL i (by rw [hpc]; rfl)
        exact absurd (Option.some.inj (h1.2.symm.trans h2.2)) hj
    · exact fun hl => absurd hl (by norm_num)
    · exact fun j _ => rfl
    · exact dropid_update hDI i _
        (by intro t' ht'; simp [dropId] at ht'; subst ht'
            exact hDI i t (by rw [hpc]; rfl))
    · exact awake_update hAL i _ (by simp)
    · exact nofatal_update hNF i _ (by simp)
  | dReqHandoff t hpc hdr =>
    refine ⟨?_, ?_, h01, ?_, ?_, ?_, ?_, ?_, ?_⟩
    · exact lockinv_update_neutral holdsM hM i _ (by rw [hpc]; rfl)
    · exact lockinv_update_neutral holdsH hH i _ (by rw [hpc]; rfl)
    · exact ownlike_update_neutral hOL i _ (by simp [owns])
    · exact fun hl => lockedown_update_nonowner (hLO hl) i (by rw [hpc]; rfl) _
    · exact ready_update hRF i _ (by simp [takeReady])
    · exact dropid_update hDI i _
        (by intro t' ht'; simp [dropId] at ht'; subst ht'
            exact hDI i t (by rw [hpc]; rfl))
    · exact awake_update hAL i _ (by simp)
    · exact nofatal_update hNF i _ (by simp)
  | dReqReturn t hpc hdr =>
    refine ⟨?_, ?_, h01, ?_, ?_, ?_, ?_, ?_, ?_⟩
    · exact lockinv_update_neutral holdsM hM i _ (by rw [hpc]; rfl)
    · exact lockinv_update_neutral holdsH hH i _ (by rw [hpc]; rfl)
    · exact ownlike_update_neutral hOL i _ (by simp [owns])
    · exact fun hl => lockedown_update_nonowner (hLO hl) i (by rw [hpc]; rfl) _
    · exact ready_update hRF i _ (by simp [takeReady])
    · exact dropid_update hDI i _ (by simp [dropId])
    · exact awake_update hAL i _ (by simp)
    · exact nofatal_update hNF i _ (by simp)
  | dAcqH t hpc hm =>
    refine ⟨?_, ?_, h01, ?_, ?_, ?_, ?_, ?_, ?_⟩
    · exact lockinv_update_neutral holdsM hM i _ (by rw [hpc]; rfl)
    · exact lockinv_update_acquire holdsH hH hm i _ rfl
    · exact ownlike_update_neutral hOL i _ (by simp [owns])
    · exact fun hl => lockedown_update_nonowner (hLO hl) i (by rw [hpc]; rfl) _
    · exact ready_update hRF i _ (by simp [takeReady])
    · exact dropid_update hDI i _
        (by intro t' ht'; simp [dropId] at ht'; subst ht'
            exact hDI i t (by rw [hpc]; rfl))
    · exact awake_update hAL i _ (by simp)
    · exact nofatal_update hNF i _ (by simp)
  | dLHWait t hpc hlh =>
    refine ⟨?_, ?_, h01, ?_, ?_, ?_, ?_, ?_, ?_⟩
    · exact lockinv_update_neutral holdsM hM i _ (by rw [hpc]; rfl)
    · exact lockinv_update_release holdsH hH i (by rw [hpc]; rfl) _ rfl
    · exact ownlike_update_neutral hOL i _ (by simp [owns])
    · exact fun hl => lockedown_update_nonowner (hLO hl) i (by rw [hpc]; rfl) _
    · exact ready_update hRF i _ (by simp [takeReady])
    · exact dropid_update hDI i _
        (by intro t' ht'; simp [dropId] at ht'; subst ht'
            exact hDI i t (by rw [hpc]; rfl))
    · exact awake_update hAL i _ (by simp)
    · exact nofatal_update hNF i _ (by simp)
  | dLHReturn t hpc hlh =>
    refine ⟨?_, ?_, h01, ?_, ?_, ?_, ?_, ?_, ?_⟩
    · exact lockinv_update_neutral holdsM hM i _ (by rw [hpc]; rfl)
    · exact lockinv_update_release holdsH hH i (by rw [hpc]; rfl) _ rfl
    · exact ownlike_update_neutral hOL i _ (by simp [owns])
    · exact fun hl => lockedown_update_nonowner (hLO hl) i (by rw [hpc]; rfl) _
    · exact ready_update hRF i _ (by simp [takeReady])
    · exact dropid_update hDI i _ (by simp [dropId])
    · exact awake_update hAL i _ (by simp)
    · exact nofatal_update hNF i _ (by simp)
  | dAwakeRet t hpc hm =>
    refine ⟨?_, ?_, h01, ?_, ?_, ?_, ?_, ?_, ?_⟩
    · exact lockinv_update_neutral holdsM hM i _ (by rw [hpc]; rfl)
    · exact lockinv_update_neutral holdsH hH i _ (by rw [hpc]; rfl)
    · exact ownlike_update_neutral hOL i _ (by simp [owns])
    · exact fun hl => lockedown_update_nonowner (hLO hl) i (by rw [hpc]; rfl) _
    · exact ready_update hRF i _ (by simp [takeReady])
    · exact dropid_update hDI i _ (by simp [dropId])
    · exact awake_update hAL i _ (by simp)
    · exact nofatal_update hNF i _ (by simp)

/-- The invariant is preserved by system steps (thread actions and
external `SET_GIL_DROP_REQUEST` calls). -/
theorem gilInv_sysStep {s s' : GilState} (inv : GilInv s)
    (h : SysStep s s') : GilInv s' := by
  rcases h with ⟨i, hstep⟩ | rfl
  · exact gilInv_step inv hstep
  · obtain ⟨hM, hH, h01, hOL, hLO, hRF, hDI, hAL, hNF⟩ := inv
    exact ⟨hM, hH, h01, hOL, hLO, hRF, hDI, hAL, hNF⟩

/-- Every reachable state satisfies the invariant. -/
theorem reachable_gilInv {s : GilState} (h : Reachable s) : GilInv s := by
  induction h with
  | refl => exact gilInv_init
  | tail _ hstep ih => exact gilInv_sysStep ih hstep

theorem inCS_owns (pc : TPC) (h : inCS pc = true) : owns pc = true := by
  cases pc <;> simp [inCS, owns] at *

theorem reach_gilW6 : Reachable gilW6 := by
  have h1 : SysStep gilInit gilW1 := Or.inl ⟨0, Step.startTake 0 gilInit rfl⟩
  have h2 : SysStep gilW1 gilW2 := Or.inl ⟨0, Step.tAcqM 0 gilW1 0 0 rfl rfl⟩
  have h3 : SysStep gilW2 gilW3 := Or.inl ⟨0, Step.tCheckFree 0 gilW2 0 rfl rfl⟩
  have h4 : SysStep gilW3 gilW4 := Or.inl ⟨0, Step.tAcqH 0 gilW3 0 rfl rfl⟩
  have h5 : SysStep gilW4 gilW5 := Or.inl ⟨0, Step.tGo 0 gilW4 0 rfl⟩
  have h6 : SysStep gilW5 gilW6 := Or.inl ⟨0, Step.tDone 0 gilW5 0 rfl⟩
  exact .tail (.tail (.tail (.tail (.tail (.tail .refl h1) h2) h3) h4) h5) h6

theorem reach_gilW14 : Reachable gilW14 := by
  have h7 : SysStep gilW6 gilW7 := Or.inr rfl
  have h8 : SysStep gilW7 gilW8 :=
    Or.inl ⟨0, Step.startDrop 0 gilW7 (some 0) rfl (Or.inl rfl)⟩
  have h9 : SysStep gilW8 gilW9 :=
    Or.inl ⟨0, Step.dCheckOk 0 gilW8 (some 0) rfl (by decide)⟩
  have h10 : SysStep gilW9 gilW10 :=
    Or.inl ⟨0, Step.dAcqM 0 gilW9 (some 0) rfl rfl⟩
  have h11 : SysStep gilW10 gilW11 :=
    Or.inl ⟨0, Step.dRel 0 gilW10 (some 0) rfl⟩
  have h12 : SysStep gilW11 gilW12 :=
    Or.inl ⟨0, Step.dReqHandoff 0 gilW11 (some 0) rfl rfl⟩
  have h13 : SysStep gilW12 gilW13 :=
    Or.inl ⟨0, Step.dAcqH 0 gilW12 (some 0) rfl rfl⟩
  have h14 : SysStep gilW13 gilW14 :=
    Or.inl ⟨0, Step.dLHWait 0 gilW13 (some 0) rfl rfl⟩
  exact .tail (.tail (.tail (.tail (.tail (.tail (.tail (.tail reach_gilW6
    h7) h8) h9) h10) h11) h12) h13) h14

theorem reach_gilX7 : Reachable gilX7 :=
  .tail reach_gilW6 (Or.inl ⟨0, Step.startDrop 0 gilW6 none rfl (Or.inr rfl)⟩)

/-! ## The claims -/

/-- Claim C1 — Mutual exclusion: in every reachable state of the lock's
step relation, at most one thread is between a completed `take_gil` and
the release write of its matching `drop_gil`; and `held = taken`
(`gil_locked = 1`) holds iff there is a logical owner, that owner equals
`gil_last_holder`, and it is unique (invariant I1). -/
theorem gil_C1_mutual_exclusion {s : GilState} (hs : Reachable s) :
    (∀ i j, inCS (s.pcs i) = true → inCS (s.pcs j) = true → i = j) ∧
    (s.gil_locked = 1 ↔
      ∃ i, owns (s.pcs i) = true ∧ s.gil_last_holder = some i) ∧
    (∀ i j, owns (s.pcs i) = true → owns (s.pcs j) = true → i = j) := by
  obtain ⟨hM, hH, h01, hOL, hLO, hRF, hDI, hAL, hNF⟩ := reachable_gilInv hs
  have huniq : ∀ i j, owns (s.pcs i) = true → owns (s.pcs j) = true →
      i = j := by
    intro i j hi hj
    exact Option.some.inj (((hOL i hi).2).symm.trans (hOL j hj).2)
  refine ⟨fun i j hi hj => huniq i j (inCS_owns _ hi) (inCS_owns _ hj),
    ⟨?_, ?_⟩, huniq⟩
  · intro hl
    obtain ⟨i, hi⟩ := hLO hl
    exact ⟨i, hi, (hOL i hi).2⟩
  · rintro ⟨i, hi, _⟩
    exact (hOL i hi).1

theorem gil_C1_mutual_exclusion_witness :
    (∀ i j, inCS (gilW6.pcs i) = true → inCS (gilW6.pcs j) = true →
      i = j) ∧
    (gilW6.gil_locked = 1 ↔
      ∃ i, owns (gilW6.pcs i) = true ∧ gilW6.gil_last_holder = some i) ∧
    (∀ i j, owns (gilW6.pcs i) = true → owns (gilW6.pcs j) = true →
      i = j) :=
  gil_C1_mutual_exclusion reach_gilW6

/-- Claim C2 — Forced handoff: in every reachable state, a thread blocked
in the handoff wait of `drop_gil` (`COND_WAIT(switch_cond,
switch_mutex)`) has no enabled action — only the `COND_SIGNAL` issued by
a fresh holder inside `take_gil` (the `tGo` action of another thread)
ends the wait — and once signalled, `gil_last_holder` differs from the
releaser's `tstate` argument (and can never return to it while the
releaser is still inside `drop_gil`), so `drop_gil` does not return
until another identity has become `gil_last_holder`. -/
theorem gil_C2_forced_handoff {s : GilState} (hs : Reachable s)
    (i : Nat) (t : Option Nat) :
    (s.pcs i = .dWaitD t → ∀ s', ¬ Step i s s') ∧
    (s.pcs i = .dAwake t → s.gil_last_holder ≠ t) := by
  constructor
  · intro hpc s' hstep
    cases hstep <;> simp_all
  · exact fun hpc => (reachable_gilInv hs).awake_lh i t hpc

theorem gil_C2_forced_handoff_witness :
    (gilW14.pcs 0 = .dWaitD (some 0) → ∀ s', ¬ Step 0 gilW14 s') ∧
    (gilW14.pcs 0 = .dAwake (some 0) → gilW14.gil_last_holder ≠ some 0) :=
  gil_C2_forced_handoff reach_gilW14 0 (some 0)

/-- Claim C3 — Per-take switch counting: the publishing action of a
successful `take_gil` by thread `i` (the action from the `tSetLocked`
counter, lines 302–307) increments `gil_switch_number` by exactly one
and sets `gil_last_holder = i` when `i` differs from the previous
`gil_last_holder`, and leaves both unchanged when they coincide. -/
theorem gil_C3_switch_increment {i : Nat} {s s' : GilState} {e : Int}
    (hstep : Step i s s') (hpc : s.pcs i = .tSetLocked e) :
    (s.gil_last_holder ≠ some i →
      s'.gil_switch_number = s.gil_switch_number + 1 ∧
      s'.gil_last_holder = some i) ∧
    (s.gil_last_holder = some i →
      s'.gil_switch_number = s.gil_switch_number ∧
      s'.gil_last_holder = s.gil_last_holder) := by
  cases hstep
  case tGo e' hpcc =>
    constructor
    · intro hne
      have hc : (some i : Option Nat) ≠ s.gil_last_holder :=
        fun hh => hne hh.symm
      dsimp only
      rw [if_pos hc, if_pos hc]
      exact ⟨rfl, rfl⟩
    · intro heq
      have hc : ¬((some i : Option Nat) ≠ s.gil_last_holder) :=
        not_not_intro heq.symm
      dsimp only
      rw [if_neg hc, if_neg hc]
      exact ⟨rfl, rfl⟩
  all_goals simp_all

theorem gil_C3_switch_increment_witness :
    (gilW4.gil_last_holder ≠ some 0 →
      gilW5.gil_switch_number = gilW4.gil_switch_number + 1 ∧
      gilW5.gil_last_holder = some 0) ∧
    (gilW4.gil_last_holder = some 0 →
      gilW5.gil_switch_number = gilW4.gil_switch_number ∧
      gilW5.gil_last_holder = gilW4.gil_last_holder) :=
  gil_C3_switch_increment (Step.tGo 0 gilW4 0 rfl) rfl

/-- Claim C4 — counterexample to the aggregate formula
`N − K − (1 if first ever take)`: from a freshly initialized lock, a
single take (`N = 1`, `K = 0`, first ever) leaves `gil_switch_number`
increased by 1, not by `1 − 0 − 1 = 0`: the very first take *does*
increment, because `gil_last_holder` starts as `NULL`, distinct from
every valid thread state. -/
theorem gil_C4_switch_formula_cex :
    ¬ ((runTakes [7] (create_gil gil_static)).map
        (fun x => x.gil_switch_number) =
      some (gil_static.gil_switch_number +
        ([7].length - countAdj [7] - 1))) := by
  decide

/-- Claim C4 (amended) — after any sequence of `N` successful takes whose
identity list has `K` adjacent equal pairs, starting from a freshly
initialized lock, `gil_switch_number` has increased by exactly `N − K`
(the first ever take counts as a switch, since `gil_last_holder` starts
as `NULL`). -/
theorem gil_C4_switch_formula_amended (s₀ : Gil) (ids : List Nat) :
    (runTakes ids (create_gil s₀)).map (fun x => x.gil_switch_number) =
      some (s₀.gil_switch_number + (ids.length - countAdj ids)) := by
  obtain ⟨s', hrun, _, hsn, _⟩ := runTakes_spec ids (create_gil s₀) rfl
  rw [hrun]
  simp only [Option.map_some']
  rw [hsn]
  rw [show (create_gil s₀).gil_last_holder = none from rfl,
    switchesFrom_none_eq]
  rfl

/-- Claim C5 — counterexample: `recreate_gil()` (= `create_gil()`) does
*not* reset `gil_switch_number` to 0, so after a simulated fork from a
state with `gil_switch_number = 5`, a `take(A); drop(A)` sequence ends
with `gil_switch_number = 6`, not 1. -/
theorem gil_C5_reinit_cex :
    ¬ ((recreate_gil gil_prefork).gil_switch_number = 0 ∧
      (runTakes [1] (recreate_gil gil_prefork)).map
          (fun x => x.gil_switch_number) = some 1) := by
  decide

/-- Claim C5 (amended) — `create_gil()` / `recreate_gil()` set
`held = free` and `last_holder = none` but leave `gil_switch_number`
unchanged (it counts switches "since the beginning"); hence after a
reinitialization a `take(A); drop(A)` sequence ends with
`gil_switch_number` equal to its pre-fork value plus one. -/
theorem gil_C5_reinit_amended (s : Gil) (a : Nat) :
    (recreate_gil s).gil_locked = 0 ∧
    (recreate_gil s).gil_last_holder = none ∧
    (recreate_gil s).gil_switch_number = s.gil_switch_number ∧
    (runTakes [a] (recreate_gil s)).map (fun x => x.gil_switch_number) =
      some (s.gil_switch_number + 1) := by
  refine ⟨rfl, rfl, rfl, ?_⟩
  simp [runTakes, takeDropCycle, take_gil, drop_gil, recreate_gil,
    create_gil]

/-- Claim C6 — Drop-request setting condition: the action following a
timed wait in `take_gil`'s loop sets the drop-request flag iff the wait
timed out, `held` is still `taken`, and `gil_switch_number` equals the
value saved before the wait; otherwise the flag is left unchanged, and
in both cases the loop re-examines `gil_locked` (waiting again iff it is
still taken).  The hypothesis `gil_locked ∈ {0, 1}` holds in every
reachable state by `reachable_gilInv`. -/
theorem gil_C6_drop_request_condition {i : Nat} {s s' : GilState}
    {e : Int} {saved : Nat} {timed_out : Bool}
    (h01 : s.gil_locked = 0 ∨ s.gil_locked = 1)
    (hstep : Step i s s')
    (hpc : s.pcs i = .tAfterWait e saved timed_out) :
    ((timed_out = true ∧ s.gil_locked = 1 ∧
        s.gil_switch_number = saved) → s'.gil_drop_request = true) ∧
    (¬(timed_out = true ∧ s.gil_locked = 1 ∧
        s.gil_switch_number = saved) →
      s'.gil_drop_request = s.gil_drop_request) ∧
    (s.gil_locked = 1 → s'.pcs i = .tWaiting e s.gil_switch_number) ∧
    (s.gil_locked = 0 → s'.pcs i = .tLockH e) := by
  cases hstep
  case tAfterBusy e' saved' timed_out' hpcc hl =>
    injection hpc.symm.trans hpcc with h1 h2 h3
    subst h1; subst h2; subst h3
    have hl1 : s.gil_locked = 1 := by
      rcases h01 with h | h
      · exact absurd h hl
      · exact h
    refine ⟨?_, ?_, ?_, ?_⟩
    · rintro ⟨ht, -, hsn⟩
      dsimp only
      rw [if_pos ⟨by exact ht, by omega, hsn⟩]
    · intro hnc
      dsimp only
      rw [if_neg ?hc]
      case hc =>
        rintro ⟨a, -, c⟩
        exact hnc ⟨by exact a, hl1, c⟩
    · intro _
      dsimp only
      rw [Function.update_same]
    · intro h0
      exact absurd h0 hl
  case tAfterFree e' saved' timed_out' hpcc hl =>
    injection hpc.symm.trans hpcc with h1 h2 h3
    subst h1; subst h2; subst h3
    refine ⟨?_, ?_, ?_, ?_⟩
    · rintro ⟨-, h1, -⟩
      omega
    · intro _
      rfl
    · intro h1
      omega
    · intro _
      dsimp only
      rw [Function.update_same]
  all_goals simp_all

theorem gil_C6_drop_request_condition_witness :
    ((true = true ∧ gilY.gil_locked = 1 ∧ gilY.gil_switch_number = 0) →
      gilY'.gil_drop_request = true) ∧
    (¬(true = true ∧ gilY.gil_locked = 1 ∧ gilY.gil_switch_number = 0) →
      gilY'.gil_drop_request = gilY.gil_drop_request) ∧
    (gilY.gil_locked = 1 →
      gilY'.pcs 1 = .tWaiting 0 gilY.gil_switch_number) ∧
    (gilY.gil_locked = 0 → gilY'.pcs 1 = .tLockH 0) :=
  gil_C6_drop_request_condition (Or.inr rfl)
    (Step.tAfterBusy 1 gilY 0 0 true rfl (by decide)) rfl

/-- Claim C7 — counterexample: in the uninitialized state
(`gil_locked = -1`, so `held ≠ taken`), `drop_gil(NULL)` does *not*
abort — the C test `if (!gil_locked)` is false for `-1` — contradicting
the claim that calling when `held ≠ taken` is always fatal. -/
theorem gil_C7_drop_fatal_cex :
    drop_gil none gil_static ≠ none ∧ gil_static.gil_locked ≠ 1 := by
  decide

/-- Claim C7 (amended) — `drop_gil(t)` aborts fatally iff `held = free`
(`gil_locked = 0`; the uninitialized value `-1` passes the `!gil_locked`
test) or `t` is non-`NULL` and differs from `gil_last_holder`. -/
theorem gil_C7_drop_fatal_amended (t : Option Nat) (s : Gil) :
    drop_gil t s = none ↔
      (s.gil_locked = 0 ∨ (t ≠ none ∧ t ≠ s.gil_last_holder)) := by
  by_cases h1 : s.gil_locked = 0
  · simp [drop_gil, h1]
  · by_cases h2 : t ≠ none ∧ t ≠ s.gil_last_holder
    · simp [drop_gil, h1, h2]
    · simp [drop_gil, h1, h2]

/-- Claim C8 — Switch-interval round trip and floor: for every `v ≥ 1`,
`_PyEval_SetSwitchInterval(v)` followed by `_PyEval_GetSwitchInterval()`
returns exactly `v`; for `v = 0`, the effective interval used by the
timed wait (the `INTERVAL` macro, which clamps at read time) is 1. -/
theorem gil_C8_switch_interval :
    (∀ (v : Nat) (s : Gil), 1 ≤ v →
      _PyEval_GetSwitchInterval (_PyEval_SetSwitchInterval v s) = v) ∧
    (∀ s : Gil, INTERVAL (_PyEval_SetSwitchInterval 0 s) = 1) := by
  constructor
  · intro v s _
    rfl
  · intro s
    simp [INTERVAL, _PyEval_SetSwitchInterval]

theorem gil_C8_switch_interval_witness :
    _PyEval_GetSwitchInterval (_PyEval_SetSwitchInterval 3 gil_static) = 3 ∧
    INTERVAL (_PyEval_SetSwitchInterval 0 gil_static) = 1 :=
  ⟨gil_C8_switch_interval.1 3 gil_static (by decide),
   gil_C8_switch_interval.2 gil_static⟩

/-- Claim C9 — Errno transparency of `take_gil`: entering `take_gil` saves
the caller's errno into the carried `err` (`err = errno;`); every action
inside the call preserves the carried value — even though the blocking
primitives clobber the thread's errno arbitrarily — until the returning
action restores it (`errno = err;`); and no action of one thread touches
another thread's errno. -/
theorem gil_C9_errno_transparent {i : Nat} {s s' : GilState}
    (hstep : Step i s s') :
    (s.pcs i = .notOwner → s'.pcs i = .tLockM (s.errnos i)) ∧
    (∀ e, takeErr (s.pcs i) = some e →
      takeErr (s'.pcs i) = some e ∨
        (s'.pcs i = .running ∧ s'.errnos i = e)) ∧
    (∀ j, j ≠ i → s'.errnos j = s.errnos j) := by
  cases hstep <;> refine ⟨?_, ?_, ?_⟩ <;> intro a <;>
    simp_all [takeErr, Function.update_same, wakeAll]

theorem gil_C9_errno_transparent_witness :
    (gilW5.pcs 0 = .notOwner → gilW6.pcs 0 = .tLockM (gilW5.errnos 0)) ∧
    (∀ e, takeErr (gilW5.pcs 0) = some e →
      takeErr (gilW6.pcs 0) = some e ∨
        (gilW6.pcs 0 = .running ∧ gilW6.errnos 0 = e)) ∧
    (∀ j, j ≠ 0 → gilW6.errnos j = gilW5.errnos j) :=
  gil_C9_errno_transparent (Step.tDone 0 gilW5 0 rfl)

/-- Claim C10 — the `NULL`-identity release: in every reachable state in which
some take has published a (necessarily non-`NULL`) `gil_last_holder`,
a thread calling `drop_gil(NULL)` passes the fatal checks (the identity
check cannot fire for `NULL`), skips the handoff wait —
`if (gil_last_holder == tstate)` is false since `tstate = NULL ≠
gil_last_holder` — and returns; moreover `gil_last_holder` never
becomes `NULL` again under any system step. -/
theorem gil_C10_null_release {s : GilState} (hs : Reachable s)
    (hlh : s.gil_last_holder ≠ none) (i : Nat) :
    (s.pcs i = .dChecks none → ∀ s', Step i s s' →
      s'.pcs i = .dLockM none) ∧
    (s.pcs i = .dCheckLH none → ∀ s', Step i s s' →
      s'.pcs i = .notOwner) ∧
    (∀ s', SysStep s s' → s'.gil_last_holder ≠ none) := by
  have inv := reachable_gilInv hs
  refine ⟨?_, ?_, ?_⟩
  · intro hpc s' hstep
    cases hstep
    case dCheckOk t hpcc hok =>
      injection hpc.symm.trans hpcc with h1
      subst h1
      dsimp only
      rw [Function.update_same]
    case dCheckFatal t hpcc hbad =>
      exfalso
      injection hpc.symm.trans hpcc with h1
      subst h1
      have hown := inv.own_locked i (by rw [hpc]; rfl)
      rcases hbad with hb | ⟨hb1, -⟩
      · rw [hown.1] at hb
        exact absurd hb (by norm_num)
      · exact hb1 rfl
    all_goals simp_all
  · intro hpc s' hstep
    cases hstep
    case dLHWait t hpcc hlh' =>
      injection hpc.symm.trans hpcc with h1
      subst h1
      exact absurd hlh' hlh
    case dLHReturn t hpcc hlh' =>
      dsimp only
      rw [Function.update_same]
    all_goals simp_all
  · intro s' hss
    rcases hss with ⟨j, hstep⟩ | rfl
    · cases hstep
      case tGo e hpcc =>
        dsimp only
        split
        · simp
        · exact hlh
      all_goals exact hlh
    · exact hlh

theorem gil_C10_null_release_witness :
    (gilX7.pcs 0 = .dChecks none → ∀ s', Step 0 gilX7 s' →
      s'.pcs 0 = .dLockM none) ∧
    (gilX7.pcs 0 = .dCheckLH none → ∀ s', Step 0 gilX7 s' →
      s'.pcs 0 = .notOwner) ∧
    (∀ s', SysStep gilX7 s' → s'.gil_last_holder ≠ none) :=
  gil_C10_null_release reach_gilX7 (by decide) 0
